import Mathlib

/-!
Verification of the transcript-summarizer job pipeline.

The development shallowly embeds the core of the repository:
`core/summarizer.py` (the summarization engine), `worker.py` (the Celery
job runner), `api.py` (the status/result endpoints), and
`models/schemas.py` (request validation).  The external LLM capability is
a parameter of type `LLM`; the result-store collaborator is a parameter
of type `ResultStore`.  Chunking, which the repository delegates to the
external langchain `RecursiveCharacterTextSplitter`, is modelled from the
specification (section 4.1) in namespace `Chunker`.
-/

namespace TranscriptSummarizer

/-- Error values are carried as their message strings (`str(e)` in the source). -/
abbrev Err := String

/-- The external LLM capability: `LLM.invoke(promptText) -> responseText`, may fail. -/
abbrev LLM := String → Except Err String

/-- A deterministic stub LLM that always answers: the standard test double for
exercising the engine (`mock_ollama_llm` in the repository's tests). -/
def pureLLM (call : String → String) : LLM := fun prompt => .ok (call prompt)

/-- Configuration constant `chunk_size` (config/settings.py, default 4000). -/
def chunk_size : Nat := 4000

/-- Configuration constant `chunk_overlap` (config/settings.py, default 200). -/
def chunk_overlap : Nat := 200

/-- Configuration constant `max_text_length` (config/settings.py, default 1000000). -/
def max_text_length : Nat := 1000000

/-- `SummarizationResult` from models/schemas.py.  `processing_time` (wall-clock
seconds, attached by the worker) and `created_at` are real-time data outside the
pure model; the compression ratio is modelled exactly as a rational. -/
structure SummarizationResult where
  summary : String
  original_length : Nat
  summary_length : Nat
  compression_ratio : ℚ
  chunk_count : Nat
  summary_type : String
deriving DecidableEq, Repr

/-- A prompt template with a single named slot: the template text before the
slot and after the slot (`PromptTemplate(template=..., input_variables=[...])`
in core/summarizer.py, where each template contains exactly one slot). -/
structure PromptTemplate where
  pre : String
  post : String
deriving DecidableEq, Repr

/-- `prompt.format(text=...)`: substitute the slot. -/
def PromptTemplate.format (p : PromptTemplate) (s : String) : String :=
  p.pre ++ s ++ p.post

/-- Python's `str.strip()`: remove whitespace from both ends.  (Defined on the
character list so that it evaluates by kernel reduction; Lean's own
`String.trim` is extensionally the same but defined by position arithmetic that
does not reduce.) -/
def pyStrip (s : String) : String :=
  List.asString (((s.data.dropWhile Char.isWhitespace).reverse.dropWhile
    Char.isWhitespace).reverse)

instance {ε α : Type _} [DecidableEq ε] [DecidableEq α] : DecidableEq (Except ε α) :=
  fun x y =>
    match x, y with
    | .ok a, .ok b =>
      if h : a = b then isTrue (by rw [h]) else isFalse (by intro hc; cases hc; exact h rfl)
    | .error a, .error b =>
      if h : a = b then isTrue (by rw [h]) else isFalse (by intro hc; cases hc; exact h rfl)
    | .ok _, .error _ => isFalse (by intro hc; cases hc)
    | .error _, .ok _ => isFalse (by intro hc; cases hc)

end TranscriptSummarizer

namespace TranscriptSummarizer.Chunker

/-- Modelled from the spec: the repository delegates chunking to
`RecursiveCharacterTextSplitter` from the external langchain library
(`core/summarizer.py` only configures `chunk_size`, `chunk_overlap` and the
separator priority `["\n\n", "\n", ". ", " ", ""]`); the splitter's own code is
not part of the repository.  Following spec section 4.1: the chunker searches
for the largest available semantic boundary not exceeding the target size.
`lastCutAux w sep lo n` scans candidate start positions below `n` from the top
and returns the largest cut position `p + sep.length` such that `sep` occurs in
`w` at position `p`, the cut is inside `w`, and the cut leaves more than `lo`
characters in the chunk (so the next chunk start advances past the overlap). -/
def lastCutAux (w sep : List Char) (lo : Nat) : Nat → Option Nat
  | 0 => none
  | p + 1 =>
    if sep.isPrefixOf (w.drop p) && decide (lo < p + sep.length)
        && decide (p + sep.length ≤ w.length)
    then some (p + sep.length)
    else lastCutAux w sep lo p

/-- Modelled from the spec: largest admissible cut position for one separator. -/
def lastCut (w sep : List Char) (lo : Nat) : Option Nat :=
  lastCutAux w sep lo (w.length + 1)

/-- Modelled from the spec: try boundary kinds in priority order — paragraph
break, line break, sentence end, word boundary — then hard character cut as the
last resort (spec section 4.1; the separator list configured in
core/summarizer.py).  The hard cut is the full window (of length `targetSize`);
`max` with `lo + 1` keeps the function total outside the `overlap < targetSize`
precondition. -/
def chooseCut (w : List Char) (lo : Nat) : Nat :=
  match lastCut w ['\n', '\n'] lo with
  | some c => c
  | none =>
    match lastCut w ['\n'] lo with
    | some c => c
    | none =>
      match lastCut w ['.', ' '] lo with
      | some c => c
      | none =>
        match lastCut w [' '] lo with
        | some c => c
        | none => max w.length (lo + 1)

/-- Modelled from the spec: the splitting loop, structurally recursive on a
fuel argument so that it evaluates by kernel reduction.  While more than
`targetSize` characters remain, cut at the chosen boundary and restart
`overlap` characters before the end of the emitted chunk; the final piece is
the last chunk.  `fuel ≥ cs.length` suffices because every emitted chunk
advances the start by at least one character (`chooseCut_lt`). -/
def splitGo (targetSize overlap : Nat) : Nat → List Char → List (List Char)
  | _, [] => []
  | 0, _ :: _ => []
  | fuel + 1, c :: cs =>
    if (c :: cs).length ≤ targetSize then [c :: cs]
    else
      let cut := chooseCut ((c :: cs).take targetSize) overlap
      (c :: cs).take cut :: splitGo targetSize overlap fuel ((c :: cs).drop (cut - overlap))

/-- Modelled from the spec: `split(text, targetSize, overlap)` — an ordered
sequence of chunks; each chunk ends at the chosen boundary, and the next chunk
begins `overlap` characters before the end of the previous chunk (spec section
4.1).  Precondition `overlap < targetSize`; empty input yields no chunks. -/
def split (targetSize overlap : Nat) (cs : List Char) : List (List Char) :=
  splitGo targetSize overlap cs.length cs

/-- The coverage reading of the spec (sections 4.1 and 8): concatenate the
chunk texts while skipping each later chunk's overlapping prefix of `overlap`
characters. -/
def reconstruct (overlap : Nat) : List (List Char) → List Char
  | [] => []
  | c :: rest => c ++ (rest.map (List.drop overlap)).flatten

end TranscriptSummarizer.Chunker

namespace TranscriptSummarizer

/-- `_get_summary_prompt` (core/summarizer.py): prompt template for single-chunk
summarization; `templates.get(summary_type, templates["comprehensive"])`. -/
def _get_summary_prompt (summary_type : String) : PromptTemplate :=
  match summary_type with
  | "comprehensive" =>
    { pre := "\nPlease provide a comprehensive summary of the following transcript. Include all key points, important details, and main themes discussed.\n\nTranscript:\n"
      post := "\n\nComprehensive Summary:" }
  | "brief" =>
    { pre := "\nPlease provide a brief, concise summary of the following transcript. Focus on the most important points only.\n\nTranscript:\n"
      post := "\n\nBrief Summary:" }
  | "key_points" =>
    { pre := "\nPlease extract the key points from the following transcript and present them as a bulleted list.\n\nTranscript:\n"
      post := "\n\nKey Points:\n•" }
  | _ =>
    { pre := "\nPlease provide a comprehensive summary of the following transcript. Include all key points, important details, and main themes discussed.\n\nTranscript:\n"
      post := "\n\nComprehensive Summary:" }

/-- `_get_map_prompt` (core/summarizer.py): prompt template for the map phase. -/
def _get_map_prompt (summary_type : String) : PromptTemplate :=
  match summary_type with
  | "comprehensive" =>
    { pre := "\nSummarize this section of a transcript, preserving all important information and context:\n\nSection:\n"
      post := "\n\nSection Summary:" }
  | "brief" =>
    { pre := "\nBriefly summarize this section of a transcript, focusing only on the most important points:\n\nSection:\n"
      post := "\n\nBrief Section Summary:" }
  | "key_points" =>
    { pre := "\nExtract the key points from this section of a transcript:\n\nSection:\n"
      post := "\n\nKey Points from this section:\n•" }
  | _ =>
    { pre := "\nSummarize this section of a transcript, preserving all important information and context:\n\nSection:\n"
      post := "\n\nSection Summary:" }

/-- `_get_reduce_prompt` (core/summarizer.py): prompt template for the reduce phase. -/
def _get_reduce_prompt (summary_type : String) : PromptTemplate :=
  match summary_type with
  | "comprehensive" =>
    { pre := "\nCombine the following section summaries into one comprehensive, coherent summary of the entire transcript. Ensure all important information is preserved and well-organized.\n\nSection Summaries:\n"
      post := "\n\nFinal Comprehensive Summary:" }
  | "brief" =>
    { pre := "\nCombine the following section summaries into one brief, coherent summary of the entire transcript.\n\nSection Summaries:\n"
      post := "\n\nFinal Brief Summary:" }
  | "key_points" =>
    { pre := "\nCombine and organize the following key points from different sections into a comprehensive list of key points for the entire transcript. Remove duplicates and organize logically.\n\nKey Points from Sections:\n"
      post := "\n\nFinal Key Points:\n•" }
  | _ =>
    { pre := "\nCombine the following section summaries into one comprehensive, coherent summary of the entire transcript. Ensure all important information is preserved and well-organized.\n\nSection Summaries:\n"
      post := "\n\nFinal Comprehensive Summary:" }

/-- `_create_documents` (core/summarizer.py): split text into documents using
the text splitter configured with `chunk_size` and `chunk_overlap`. -/
def _create_documents (text : String) : List String :=
  (Chunker.split chunk_size chunk_overlap text.data).map List.asString

/-- `_summarize_single_chunk` (core/summarizer.py): one LLM call with the
single-chunk template; the raw output stripped. -/
def _summarize_single_chunk (llm : LLM) (document : String) (summary_type : String) :
    Except Err String := do
  let prompt := _get_summary_prompt summary_type
  let summary ← llm (prompt.format document)
  return (pyStrip summary)

/-- Batch size for the map phase (`batch_size = 3` in `_summarize_multiple_chunks`). -/
def batch_size : Nat := 3

/-- Observable scheduling events of the map phase: a batch of chunks whose LLM
calls are issued concurrently, and the `asyncio.sleep(0.5)` pause that follows
each batch. -/
inductive MapEvent where
  | batch (docs : List String)
  | sleep (seconds : ℚ)
deriving DecidableEq, Repr

/-- `asyncio.gather` over the tasks of one batch: the calls of the batch, with
the first raised failure aborting the whole gather. -/
def invokeAll (llm : LLM) : List String → Except Err (List String)
  | [] => .ok []
  | p :: ps => do
    let r ← llm p
    let rs ← invokeAll llm ps
    return (r :: rs)

/-- The batching loop of `_summarize_multiple_chunks`
(`for i in range(0, len(documents), batch_size)`): issue the `batch_size = 3`
calls of one batch, gather them in task order, strip each result, pause
(`asyncio.sleep(0.5)`), and continue with the next batch; a final shorter batch
takes the leftover documents.  Returns the per-chunk summaries together with
the scheduling events.  (Written with explicit three-element patterns — the
loop strides by the constant `batch_size = 3` — so that the function is
structurally recursive and evaluates by kernel reduction.) -/
def mapBatches (llm : LLM) (map_prompt : PromptTemplate) :
    List String → Except Err (List String × List MapEvent)
  | [] => .ok ([], [])
  | [a] => do
    let batch_results ← invokeAll llm ([a].map fun doc => map_prompt.format doc)
    return (batch_results.map pyStrip, [MapEvent.batch [a], MapEvent.sleep (1/2)])
  | [a, b] => do
    let batch_results ← invokeAll llm ([a, b].map fun doc => map_prompt.format doc)
    return (batch_results.map pyStrip, [MapEvent.batch [a, b], MapEvent.sleep (1/2)])
  | a :: b :: c :: rest => do
    let batch := [a, b, c]
    let batch_results ← invokeAll llm (batch.map fun doc => map_prompt.format doc)
    let (rest_results, events) ← mapBatches llm map_prompt rest
    return (batch_results.map pyStrip ++ rest_results,
            MapEvent.batch batch :: MapEvent.sleep (1/2) :: events)

/-- The successive batches the loop of `_summarize_multiple_chunks` processes:
groups of `batch_size = 3` consecutive documents, the last group possibly
shorter. -/
def chunkBatches : List String → List (List String)
  | [] => []
  | [a] => [[a]]
  | [a, b] => [[a, b]]
  | a :: b :: c :: rest => [a, b, c] :: chunkBatches rest

/-- `_summarize_multiple_chunks` (core/summarizer.py): map phase in batches,
join the chunk summaries with a blank line, then one reduce call; the final
output stripped. -/
def _summarize_multiple_chunks (llm : LLM) (documents : List String)
    (summary_type : String) : Except Err String := do
  let map_prompt := _get_map_prompt summary_type
  let (chunk_summaries, _events) ← mapBatches llm map_prompt documents
  let combined_summaries := String.intercalate "\n\n" chunk_summaries
  let reduce_prompt := _get_reduce_prompt summary_type
  let final_summary ← llm (reduce_prompt.format combined_summaries)
  return (pyStrip final_summary)

/-- Which branch of `summarize_transcript` produced the summary: the
single-chunk direct path or the map-reduce path. -/
inductive SummaryPath where
  | single
  | mapReduce
deriving DecidableEq, Repr

/-- `summarize_transcript` (core/summarizer.py): chunk the text, summarize via
the single-chunk or map-reduce path, and construct the `SummarizationResult`
(`compression_ratio = len(text) / len(summary) if summary else 0`,
`chunk_count = len(documents)`).  Exceptions from the LLM propagate unchanged
(`except ... raise`).  The taken branch is returned alongside the result. -/
def summarize_transcript (llm : LLM) (text : String) (summary_type : String) :
    Except Err (SummarizationResult × SummaryPath) :=
  let documents := _create_documents text
  let branch : Except Err (String × SummaryPath) :=
    if documents.length == 1 then
      (_summarize_single_chunk llm (documents.getD 0 "") summary_type).map
        (fun s => (s, SummaryPath.single))
    else
      (_summarize_multiple_chunks llm documents summary_type).map
        (fun s => (s, SummaryPath.mapReduce))
  match branch with
  | .error e => .error e
  | .ok (summary, path) =>
    .ok ({ summary := summary
           original_length := text.length
           summary_length := summary.length
           compression_ratio :=
             if summary = "" then 0
             else (text.length : ℚ) / (summary.length : ℚ)
           chunk_count := documents.length
           summary_type := summary_type }, path)

/-- The Result Store collaborator (`vector_store.store_summary(task_id, text,
result)`), may fail. -/
abbrev ResultStore := String → String → SummarizationResult → Except Err String

/-- Terminal state of a Celery job as the worker leaves it: `COMPLETED` with
the result, or `FAILED` with the captured error message. -/
inductive JobState where
  | completed (result : SummarizationResult)
  | failed (error : String)
deriving DecidableEq, Repr

/-- `_run_summarization` (worker.py): run the engine, then best-effort persist
the result to the vector store — a storage failure is logged and swallowed
(`except ... # Don't fail the task if vector storage fails`). -/
def _run_summarization (llm : LLM) (store : ResultStore)
    (task_id text summary_type : String) : Except Err SummarizationResult :=
  match summarize_transcript llm text summary_type with
  | .error e => .error e
  | .ok (result, _path) =>
    match store task_id text result with
    | .ok _ => .ok result
    | .error _ => .ok result

/-- `summarize_transcript_task` (worker.py): on success the task completes with
the result; on any exception the task state becomes `FAILURE` with `str(e)` and
the exception is re-raised so Celery marks the task failed. -/
def summarize_transcript_task (llm : LLM) (store : ResultStore)
    (task_id text summary_type : String) : JobState :=
  match _run_summarization llm store task_id text summary_type with
  | .ok result => JobState.completed result
  | .error e => JobState.failed e

end TranscriptSummarizer

namespace TranscriptSummarizer

/-- `TaskStatus` (models/schemas.py). -/
inductive TaskStatus where
  | pending
  | processing
  | completed
  | failed
deriving DecidableEq, Repr

/-- `TaskStatusResponse` (models/schemas.py), without the timestamp fields. -/
structure TaskStatusResponse where
  task_id : String
  status : TaskStatus
  progress : Option Nat
  result : Option SummarizationResult
  error_message : Option String
deriving DecidableEq, Repr

/-- The observable state of a Celery `AsyncResult`: the state string together
with the data the endpoints read from it (`info` for progress or failure
reason, `result` for a success payload). -/
inductive CeleryState where
  | PENDING
  | PROCESSING (progress : Nat)
  | SUCCESS (result : Option SummarizationResult)
  | FAILURE (info : String)
  | OTHER (state : String)
deriving DecidableEq, Repr

/-- `celery_app.AsyncResult(task_id)`: the backend's record for the id if one
exists.  Celery reports the state of an id it has no record of — an unknown
job id — as `PENDING`. -/
def asyncResult (backend : String → Option CeleryState) (task_id : String) :
    CeleryState :=
  match backend task_id with
  | some s => s
  | none => CeleryState.PENDING

/-- `get_task_status` (api.py, `GET /status/{task_id}`): map the Celery state
onto a `TaskStatusResponse`; unrecognized states fall back to `pending`.  The
error channel carries an HTTP status code and detail message; the handler body
raises no HTTP error for any state. -/
def get_task_status (backend : String → Option CeleryState) (task_id : String) :
    Except (Nat × String) TaskStatusResponse :=
  match asyncResult backend task_id with
  | .PENDING =>
    .ok { task_id := task_id, status := .pending, progress := none
          result := none, error_message := none }
  | .PROCESSING progress =>
    .ok { task_id := task_id, status := .processing, progress := some progress
          result := none, error_message := none }
  | .SUCCESS result =>
    .ok { task_id := task_id, status := .completed, progress := some 100
          result := result, error_message := none }
  | .FAILURE info =>
    .ok { task_id := task_id, status := .failed, progress := none
          result := none, error_message := some info }
  | .OTHER _ =>
    .ok { task_id := task_id, status := .pending, progress := none
          result := none, error_message := none }

/-- Where `get_summary` found the returned summary: the Celery result backend
or the vector store. -/
inductive SummarySource where
  | celery (result : SummarizationResult)
  | stored (result : SummarizationResult)
deriving DecidableEq, Repr

/-- `get_summary` (api.py, `GET /summary/{task_id}`): return the Celery result
if the task succeeded; otherwise try the vector store; otherwise answer 202
while the state is PENDING or PROCESSING, 400 with the failure info if FAILURE,
and 404 for anything else. -/
def get_summary (backend : String → Option CeleryState)
    (vstore : String → Option SummarizationResult) (task_id : String) :
    Except (Nat × String) SummarySource :=
  let task_result := asyncResult backend task_id
  match task_result with
  | .SUCCESS (some result) => .ok (.celery result)
  | _ =>
    match vstore task_id with
    | some result => .ok (.stored result)
    | none =>
      match task_result with
      | .PENDING =>
        .error (202, "Task is still processing. Check status endpoint for progress.")
      | .PROCESSING _ =>
        .error (202, "Task is still processing. Check status endpoint for progress.")
      | .FAILURE info => .error (400, "Task failed: " ++ info)
      | _ => .error (404, "Summary not found")

/-- The `@validator('text')` of `SummarizationRequest` (models/schemas.py):
reject text that is empty after stripping, and return the stripped text. -/
def validate_text (v : String) : Except Err String :=
  if pyStrip v = "" then .error "Text cannot be empty or only whitespace"
  else .ok (pyStrip v)

/-- Validation of the `text` field of `SummarizationRequest`
(models/schemas.py): the field constraints `min_length=10` / `max_length=1000000`
run on the submitted value first, then the `validate_text` validator strips it. -/
def summarizationRequest_text (text : String) : Except Err String :=
  if text.length < 10 then
    .error "ensure this value has at least 10 characters"
  else if 1000000 < text.length then
    .error "ensure this value has at most 1000000 characters"
  else validate_text text

/-- The Celery task submission built by the `/summarize` endpoint:
`send_task("summarize_transcript_task", args=[request.text, request.summary_type.value])`. -/
structure SubmittedTask where
  text : String
  summary_type : String
deriving DecidableEq, Repr

/-- `summarize_transcript` endpoint (api.py, `POST /summarize`): parse and
validate the request model (422 on a validation error, before any task is
created), re-check the configured maximum length (413), then submit the task. -/
def summarize_endpoint (text summary_type : String) :
    Except (Nat × String) SubmittedTask :=
  match summarizationRequest_text text with
  | .error m => .error (422, m)
  | .ok validated =>
    if max_text_length < validated.length then
      .error (413, "Text too long. Maximum length is 1000000 characters.")
    else .ok { text := validated, summary_type := summary_type }

/-- One possible completion order of the concurrent LLM calls of a batch: the
call for chunk `i` of the batch finishes in the position `order` gives it; the
completed tasks carry their original chunk index. -/
def runByCompletion (call : String → String) (batch : List String)
    (order : List Nat) : List (Nat × String) :=
  order.map fun i => (i, call (batch.getD i ""))

/-- Reassembly of gathered batch results by original chunk index, as
`asyncio.gather` returns them: position `i` of the output is the result of the
task for chunk `i`, whatever its completion position was. -/
def gatherResults (n : Nat) (completed : List (Nat × String)) : List String :=
  (List.range n).filterMap fun i =>
    (completed.find? fun p => p.1 == i).map Prod.snd

end TranscriptSummarizer

namespace TranscriptSummarizer.Chunker

theorem lastCutAux_sound (w sep : List Char) (lo : Nat) :
    ∀ n c, lastCutAux w sep lo n = some c → lo < c ∧ c ≤ w.length := by
  intro n
  induction n with
  | zero => intro c h; simp [lastCutAux] at h
  | succ p ih =>
    intro c h
    rw [lastCutAux] at h
    by_cases hcond : (sep.isPrefixOf (w.drop p) && decide (lo < p + sep.length)
        && decide (p + sep.length ≤ w.length)) = true
    · rw [if_pos hcond] at h
      simp only [Bool.and_eq_true, decide_eq_true_eq] at hcond
      cases h
      exact ⟨hcond.1.2, hcond.2⟩
    · rw [if_neg hcond] at h
      exact ih c h

theorem lastCut_sound (w sep : List Char) (lo c : Nat) (h : lastCut w sep lo = some c) :
    lo < c ∧ c ≤ w.length :=
  lastCutAux_sound w sep lo (w.length + 1) c h

theorem chooseCut_lt (w : List Char) (lo : Nat) : lo < chooseCut w lo := by
  unfold chooseCut
  rcases h1 : lastCut w ['\n', '\n'] lo with _ | c
  · rcases h2 : lastCut w ['\n'] lo with _ | c
    · rcases h3 : lastCut w ['.', ' '] lo with _ | c
      · rcases h4 : lastCut w [' '] lo with _ | c
        · simp
        · exact (lastCut_sound _ _ _ _ h4).1
      · exact (lastCut_sound _ _ _ _ h3).1
    · exact (lastCut_sound _ _ _ _ h2).1
  · exact (lastCut_sound _ _ _ _ h1).1

theorem chooseCut_le (w : List Char) (lo : Nat) :
    chooseCut w lo ≤ max w.length (lo + 1) := by
  unfold chooseCut
  rcases h1 : lastCut w ['\n', '\n'] lo with _ | c
  · rcases h2 : lastCut w ['\n'] lo with _ | c
    · rcases h3 : lastCut w ['.', ' '] lo with _ | c
      · rcases h4 : lastCut w [' '] lo with _ | c
        · exact le_refl _
        · exact le_max_of_le_left (lastCut_sound _ _ _ _ h4).2
      · exact le_max_of_le_left (lastCut_sound _ _ _ _ h3).2
    · exact le_max_of_le_left (lastCut_sound _ _ _ _ h2).2
  · exact le_max_of_le_left (lastCut_sound _ _ _ _ h1).2

theorem splitGo_first (targetSize overlap : Nat) (fuel : Nat) (cs : List Char)
    (hne : cs ≠ []) (hfuel : cs.length ≤ fuel) (hlen : overlap ≤ cs.length) :
    ∃ c rest, splitGo targetSize overlap fuel cs = c :: rest ∧ overlap ≤ c.length := by
  rcases cs with _ | ⟨c0, cs'⟩
  · exact absurd rfl hne
  rcases fuel with _ | fuel
  · simp at hfuel
  by_cases hle : (c0 :: cs').length ≤ targetSize
  · exact ⟨c0 :: cs', [], by rw [splitGo, if_pos hle], hlen⟩
  · refine ⟨(c0 :: cs').take (chooseCut ((c0 :: cs').take targetSize) overlap),
      splitGo targetSize overlap fuel
        ((c0 :: cs').drop (chooseCut ((c0 :: cs').take targetSize) overlap - overlap)),
      ?_, ?_⟩
    · rw [splitGo, if_neg hle]
    · have h1 := chooseCut_lt ((c0 :: cs').take targetSize) overlap
      simp only [List.length_take]
      omega

theorem splitGo_cover (targetSize overlap : Nat) (hov : overlap < targetSize) :
    ∀ (fuel : Nat) (cs : List Char), cs ≠ [] → cs.length ≤ fuel →
      reconstruct overlap (splitGo targetSize overlap fuel cs) = cs := by
  intro fuel
  induction fuel with
  | zero =>
    intro cs hne hf
    rcases cs with _ | ⟨a, l⟩
    · exact absurd rfl hne
    · simp at hf
  | succ fuel ih =>
    intro cs hne hf
    rcases cs with _ | ⟨c0, cs'⟩
    · exact absurd rfl hne
    by_cases hle : (c0 :: cs').length ≤ targetSize
    · rw [splitGo, if_pos hle]
      simp [reconstruct]
    · have hlen_gt : targetSize < (c0 :: cs').length := by omega
      have hwlen : ((c0 :: cs').take targetSize).length = targetSize := by
        simp only [List.length_take]; omega
      have hcg : overlap < chooseCut ((c0 :: cs').take targetSize) overlap :=
        chooseCut_lt _ overlap
      have hcl : chooseCut ((c0 :: cs').take targetSize) overlap ≤ targetSize := by
        have h := chooseCut_le ((c0 :: cs').take targetSize) overlap
        rw [hwlen] at h
        omega
      set cut := chooseCut ((c0 :: cs').take targetSize) overlap with hcutdef
      have hd'len : ((c0 :: cs').drop (cut - overlap)).length
          = (c0 :: cs').length - (cut - overlap) := by simp
      have hd'ne : (c0 :: cs').drop (cut - overlap) ≠ [] := by
        apply List.ne_nil_of_length_pos; omega
      have hd'fuel : ((c0 :: cs').drop (cut - overlap)).length ≤ fuel := by omega
      have hd'ov : overlap < ((c0 :: cs').drop (cut - overlap)).length := by omega
      obtain ⟨c1, rest1, hfirst, hc1len⟩ :=
        splitGo_first targetSize overlap fuel ((c0 :: cs').drop (cut - overlap))
          hd'ne hd'fuel (le_of_lt hd'ov)
      have hIH := ih ((c0 :: cs').drop (cut - overlap)) hd'ne hd'fuel
      rw [hfirst] at hIH
      have hIH' : c1 ++ (rest1.map (List.drop overlap)).flatten
          = (c0 :: cs').drop (cut - overlap) := by
        simpa [reconstruct] using hIH
      rw [splitGo, if_neg hle, ← hcutdef]
      show reconstruct overlap ((c0 :: cs').take cut
        :: splitGo targetSize overlap fuel ((c0 :: cs').drop (cut - overlap))) = c0 :: cs'
      rw [hfirst]
      show (c0 :: cs').take cut
          ++ (List.drop overlap c1 :: rest1.map (List.drop overlap)).flatten = c0 :: cs'
      have hstep : List.drop overlap c1 ++ (rest1.map (List.drop overlap)).flatten
          = List.drop overlap ((c0 :: cs').drop (cut - overlap)) := by
        rw [← hIH', List.drop_append_of_le_length hc1len]
      calc (c0 :: cs').take cut
            ++ (List.drop overlap c1 :: rest1.map (List.drop overlap)).flatten
          = (c0 :: cs').take cut
            ++ (List.drop overlap c1 ++ (rest1.map (List.drop overlap)).flatten) := by
            simp
        _ = (c0 :: cs').take cut
            ++ List.drop overlap ((c0 :: cs').drop (cut - overlap)) := by rw [hstep]
        _ = (c0 :: cs').take cut ++ (c0 :: cs').drop cut := by
            rw [List.drop_drop]
            have harith : cut - overlap + overlap = cut := by omega
            rw [harith]
        _ = c0 :: cs' := List.take_append_drop _ _

theorem split_cover (targetSize overlap : Nat) (cs : List Char)
    (hov : overlap < targetSize) (hne : cs ≠ []) :
    reconstruct overlap (split targetSize overlap cs) = cs :=
  splitGo_cover targetSize overlap hov cs.length cs hne (le_refl _)

end TranscriptSummarizer.Chunker

namespace TranscriptSummarizer

set_option maxRecDepth 20000

theorem string_eq_empty_of_length {s : String} (h : s.length = 0) : s = "" := by
  cases s with
  | mk data =>
    cases data with
    | nil => rfl
    | cons a l => simp [String.length] at h

theorem string_length_ne_zero {s : String} (h : s ≠ "") : s.length ≠ 0 :=
  fun hc => h (string_eq_empty_of_length hc)

theorem summarize_ok_inv (llm : LLM) (text summary_type : String)
    (r : SummarizationResult) (p : SummaryPath)
    (h : summarize_transcript llm text summary_type = .ok (r, p)) :
    ∃ summary,
      r = { summary := summary
            original_length := text.length
            summary_length := summary.length
            compression_ratio := if summary = "" then 0
              else (text.length : ℚ) / (summary.length : ℚ)
            chunk_count := (_create_documents text).length
            summary_type := summary_type }
      ∧ ((_create_documents text).length = 1 → p = SummaryPath.single)
      ∧ ((_create_documents text).length ≠ 1 → p = SummaryPath.mapReduce) := by
  rw [summarize_transcript.eq_def] at h
  simp only [] at h
  by_cases hone : ((_create_documents text).length == 1) = true
  · rw [if_pos hone] at h
    have hone' : (_create_documents text).length = 1 := by simpa using hone
    rcases hs : _summarize_single_chunk llm ((_create_documents text).getD 0 "")
        summary_type with e | sm
    · rw [hs] at h; simp [Except.map] at h
    · rw [hs] at h
      simp only [Except.map, Except.ok.injEq, Prod.mk.injEq] at h
      exact ⟨sm, h.1.symm, fun _ => h.2.symm, fun hne => absurd hone' hne⟩
  · rw [if_neg hone] at h
    have hone' : (_create_documents text).length ≠ 1 := by simpa using hone
    rcases hs : _summarize_multiple_chunks llm (_create_documents text)
        summary_type with e | sm
    · rw [hs] at h; simp [Except.map] at h
    · rw [hs] at h
      simp only [Except.map, Except.ok.injEq, Prod.mk.injEq] at h
      exact ⟨sm, h.1.symm, fun hc => absurd hc hone', fun _ => h.2.symm⟩

/-- C2: for every `SummarizationResult` returned by the engine,
`chunk_count = 1` iff the single-chunk path was taken, and `chunk_count > 1`
implies the map-reduce path was taken and `chunk_count` equals the number of
chunks the Chunker produced for the input. -/
theorem claim_c2_chunk_count_path (llm : LLM) (text summary_type : String)
    (r : SummarizationResult) (p : SummaryPath)
    (h : summarize_transcript llm text summary_type = .ok (r, p)) :
    (r.chunk_count = 1 ↔ p = SummaryPath.single)
    ∧ (1 < r.chunk_count → p = SummaryPath.mapReduce
        ∧ r.chunk_count = (_create_documents text).length) := by
  obtain ⟨sm, hr, hsingle, hmulti⟩ := summarize_ok_inv llm text summary_type r p h
  subst hr
  refine ⟨⟨fun h1 => hsingle h1, fun hp => ?_⟩, fun hgt => ?_⟩
  · by_contra hne
    have := hmulti hne
    rw [hp] at this
    exact SummaryPath.noConfusion this
  · have hne : (_create_documents text).length ≠ 1 := by
      simp only [SummarizationResult.chunk_count] at hgt
      omega
    exact ⟨hmulti hne, rfl⟩

/-- C2 witness: a single-chunk input ("hello world" with the default 4000-char
chunk size) takes the single path with `chunk_count = 1`. -/
theorem claim_c2_chunk_count_path_witness :
    (({ summary := "ok", original_length := 11, summary_length := 2,
        compression_ratio := (11 : ℚ) / (2 : ℚ), chunk_count := 1,
        summary_type := "comprehensive" } : SummarizationResult).chunk_count = 1
      ↔ SummaryPath.single = SummaryPath.single) :=
  (claim_c2_chunk_count_path (pureLLM fun _ => "ok") "hello world" "comprehensive"
    { summary := "ok", original_length := 11, summary_length := 2,
      compression_ratio := (11 : ℚ) / (2 : ℚ), chunk_count := 1,
      summary_type := "comprehensive" }
    SummaryPath.single rfl).1

/-- C3: every result's `compression_ratio` equals `original_length /
summary_length`, and `0` when the summary is empty; in particular a
1000-character original with a 100-character stub summary yields ratio 10, and
an empty stub summary yields ratio 0. -/
theorem claim_c3_compression_ratio :
    (∀ (llm : LLM) (text summary_type : String) (r : SummarizationResult)
        (p : SummaryPath),
      summarize_transcript llm text summary_type = .ok (r, p) →
      r.compression_ratio = if r.summary_length = 0 then 0
        else (r.original_length : ℚ) / (r.summary_length : ℚ))
    ∧ (∃ r p, summarize_transcript (pureLLM fun _ => String.mk (List.replicate 100 'b'))
          (String.mk (List.replicate 1000 'a')) "comprehensive" = .ok (r, p)
        ∧ r.original_length = 1000 ∧ r.summary_length = 100
        ∧ r.compression_ratio = 10)
    ∧ (∃ r p, summarize_transcript (pureLLM fun _ => "")
          (String.mk (List.replicate 1000 'a')) "comprehensive" = .ok (r, p)
        ∧ r.summary_length = 0 ∧ r.compression_ratio = 0) := by
  refine ⟨?_, ?_, ?_⟩
  · intro llm text summary_type r p h
    obtain ⟨sm, hr, -, -⟩ := summarize_ok_inv llm text summary_type r p h
    subst hr
    by_cases hsm : sm = ""
    · subst hsm
      simp
    · simp only [SummarizationResult.compression_ratio, SummarizationResult.summary_length,
        SummarizationResult.original_length]
      rw [if_neg hsm, if_neg (string_length_ne_zero hsm)]
  · exact ⟨{ summary := String.mk (List.replicate 100 'b'), original_length := 1000,
             summary_length := 100, compression_ratio := (1000 : ℚ) / (100 : ℚ),
             chunk_count := 1, summary_type := "comprehensive" },
      SummaryPath.single, rfl, rfl, rfl, by norm_num⟩
  · exact ⟨{ summary := "", original_length := 1000, summary_length := 0,
             compression_ratio := 0, chunk_count := 1, summary_type := "comprehensive" },
      SummaryPath.single, rfl, rfl, rfl⟩

/-- C3 witness: the general compression-ratio law applied to a concrete run
(11-character input, 2-character stub summary). -/
theorem claim_c3_compression_ratio_witness :
    ({ summary := "ok", original_length := 11, summary_length := 2,
       compression_ratio := (11 : ℚ) / (2 : ℚ), chunk_count := 1,
       summary_type := "comprehensive" } : SummarizationResult).compression_ratio
    = if ({ summary := "ok", original_length := 11, summary_length := 2,
            compression_ratio := (11 : ℚ) / (2 : ℚ), chunk_count := 1,
            summary_type := "comprehensive" } : SummarizationResult).summary_length = 0
      then 0
      else (({ summary := "ok", original_length := 11, summary_length := 2,
               compression_ratio := (11 : ℚ) / (2 : ℚ), chunk_count := 1,
               summary_type := "comprehensive" } : SummarizationResult).original_length : ℚ)
        / (({ summary := "ok", original_length := 11, summary_length := 2,
              compression_ratio := (11 : ℚ) / (2 : ℚ), chunk_count := 1,
              summary_type := "comprehensive" } : SummarizationResult).summary_length : ℚ) :=
  claim_c3_compression_ratio.1 (pureLLM fun _ => "ok") "hello world" "comprehensive"
    { summary := "ok", original_length := 11, summary_length := 2,
      compression_ratio := (11 : ℚ) / (2 : ℚ), chunk_count := 1,
      summary_type := "comprehensive" }
    SummaryPath.single rfl

/-- C5: when summarization succeeds, a failing Result Store does not fail the
job — the task still completes with the valid result (the storage failure is
only logged). -/
theorem claim_c5_persistence_non_fatal (llm : LLM) (store : ResultStore)
    (task_id text summary_type : String) (r : SummarizationResult)
    (p : SummaryPath) (m : String)
    (hok : summarize_transcript llm text summary_type = .ok (r, p))
    (hfail : store task_id text r = .error m) :
    summarize_transcript_task llm store task_id text summary_type
      = JobState.completed r := by
  unfold summarize_transcript_task _run_summarization
  rw [hok]
  dsimp only
  rw [hfail]

/-- C5 witness: a concrete run with a stub LLM and a store that always fails
still completes with the result. -/
theorem claim_c5_persistence_non_fatal_witness :
    summarize_transcript_task (pureLLM fun _ => "ok") (fun _ _ _ => .error "boom")
      "task-1" "hello world" "comprehensive"
    = JobState.completed
        { summary := "ok", original_length := 11, summary_length := 2,
          compression_ratio := (11 : ℚ) / (2 : ℚ), chunk_count := 1,
          summary_type := "comprehensive" } :=
  claim_c5_persistence_non_fatal (pureLLM fun _ => "ok") (fun _ _ _ => .error "boom")
    "task-1" "hello world" "comprehensive"
    { summary := "ok", original_length := 11, summary_length := 2,
      compression_ratio := (11 : ℚ) / (2 : ℚ), chunk_count := 1,
      summary_type := "comprehensive" }
    SummaryPath.single "boom" rfl rfl

/-- C8: for every phase (single, map, reduce), a style outside
{comprehensive, brief, key_points} selects the comprehensive template,
silently (the selectors are total functions). -/
theorem claim_c8_unknown_style_fallback (style : String)
    (h1 : style ≠ "comprehensive") (h2 : style ≠ "brief")
    (h3 : style ≠ "key_points") :
    _get_summary_prompt style = _get_summary_prompt "comprehensive"
    ∧ _get_map_prompt style = _get_map_prompt "comprehensive"
    ∧ _get_reduce_prompt style = _get_reduce_prompt "comprehensive" := by
  refine ⟨?_, ?_, ?_⟩
  · unfold _get_summary_prompt
    split <;> simp_all
  · unfold _get_map_prompt
    split <;> simp_all
  · unfold _get_reduce_prompt
    split <;> simp_all

/-- C8 witness: the unrecognized style "bogus" selects the comprehensive
template in all three phases. -/
theorem claim_c8_unknown_style_fallback_witness :
    _get_summary_prompt "bogus" = _get_summary_prompt "comprehensive"
    ∧ _get_map_prompt "bogus" = _get_map_prompt "comprehensive"
    ∧ _get_reduce_prompt "bogus" = _get_reduce_prompt "comprehensive" :=
  claim_c8_unknown_style_fallback "bogus" (by decide) (by decide) (by decide)

end TranscriptSummarizer

namespace TranscriptSummarizer

theorem except_bind_ok {α β : Type} (a : α) (f : α → Except Err β) :
    (Except.ok a : Except Err α) >>= f = f a := rfl

theorem except_bind_error {α β : Type} (e : Err) (f : α → Except Err β) :
    (Except.error e : Except Err α) >>= f = Except.error e := rfl

theorem invokeAll_error (llm : LLM) :
    ∀ ps : List String, (∃ q ∈ ps, ∃ m, llm q = .error m) →
    ∃ e, invokeAll llm ps = .error e := by
  intro ps
  induction ps with
  | nil => rintro ⟨q, hq, -⟩; cases hq
  | cons p rest ih =>
    rintro ⟨q, hq, m, hqe⟩
    rcases hl : llm p with e | v
    · exact ⟨e, by rw [invokeAll, hl]; rfl⟩
    · rcases List.mem_cons.mp hq with rfl | hmem
      · rw [hl] at hqe
        cases hqe
      · obtain ⟨e, he⟩ := ih ⟨q, hmem, m, hqe⟩
        refine ⟨e, ?_⟩
        rw [invokeAll, hl, except_bind_ok, he, except_bind_error]

theorem mapBatches_error (llm : LLM) (mp : PromptTemplate) :
    ∀ (n : Nat) (docs : List String), docs.length ≤ n →
    (∃ d ∈ docs, ∃ m, llm (mp.format d) = .error m) →
    ∃ e, mapBatches llm mp docs = .error e := by
  intro n
  induction n with
  | zero =>
    intro docs hlen hex
    have : docs = [] := List.eq_nil_of_length_eq_zero (Nat.le_zero.mp hlen)
    subst this
    rcases hex with ⟨d, hd, -⟩
    cases hd
  | succ n ih =>
    intro docs hlen hex
    match docs with
    | [] =>
      rcases hex with ⟨d, hd, -⟩
      cases hd
    | [a] =>
      obtain ⟨d, hd, m, hm⟩ := hex
      have hda : d = a := by simpa using hd
      subst hda
      obtain ⟨e, he⟩ :=
        invokeAll_error llm ([d].map fun doc => mp.format doc)
          ⟨mp.format d, by simp, m, hm⟩
      exact ⟨e, by rw [mapBatches, he]; rfl⟩
    | [a, b] =>
      obtain ⟨d, hd, m, hm⟩ := hex
      obtain ⟨e, he⟩ :=
        invokeAll_error llm ([a, b].map fun doc => mp.format doc)
          ⟨mp.format d, List.mem_map_of_mem _ (by simpa using hd), m, hm⟩
      exact ⟨e, by rw [mapBatches, he]; rfl⟩
    | a :: b :: c :: rest =>
      obtain ⟨d, hd, m, hm⟩ := hex
      by_cases hdb : d ∈ [a, b, c]
      · obtain ⟨e, he⟩ :=
          invokeAll_error llm ([a, b, c].map fun doc => mp.format doc)
            ⟨mp.format d, List.mem_map_of_mem _ hdb, m, hm⟩
        exact ⟨e, by rw [mapBatches, he]; rfl⟩
      · have hdr : d ∈ rest := by
          simp only [List.mem_cons] at hd
          simp only [List.mem_cons, List.mem_singleton] at hdb
          rcases hd with rfl | rfl | rfl | h
          · exact absurd (by simp) hdb
          · exact absurd (by simp) hdb
          · exact absurd (by simp) hdb
          · exact h
        rcases hia : invokeAll llm ([a, b, c].map fun doc => mp.format doc) with e | vs
        · exact ⟨e, by rw [mapBatches, hia]; rfl⟩
        · have hlen' : rest.length ≤ n := by
            simp only [List.length_cons] at hlen
            omega
          obtain ⟨e, he⟩ := ih rest hlen' ⟨d, hdr, m, hm⟩
          refine ⟨e, ?_⟩
          rw [mapBatches, hia, except_bind_ok, he, except_bind_error]

/-- C4: any LLM failure during the map or reduce phase aborts the whole job —
the engine propagates the underlying error (no partial summary) and the worker
leaves the job FAILED with the captured message. -/
theorem claim_c4_llm_failure_aborts_job :
    (∀ (llm : LLM) (store : ResultStore) (task_id text summary_type e : String),
      summarize_transcript llm text summary_type = .error e →
      summarize_transcript_task llm store task_id text summary_type
        = JobState.failed e)
    ∧ (∀ (llm : LLM) (doc summary_type m : String),
      llm ((_get_summary_prompt summary_type).format doc) = .error m →
      _summarize_single_chunk llm doc summary_type = .error m)
    ∧ (∀ (llm : LLM) (documents : List String) (summary_type : String),
      (∃ d ∈ documents, ∃ m, llm ((_get_map_prompt summary_type).format d) = .error m) →
      ∃ e, _summarize_multiple_chunks llm documents summary_type = .error e)
    ∧ (∀ (llm : LLM) (documents : List String) (summary_type : String)
        (summaries : List String) (events : List MapEvent) (m : String),
      mapBatches llm (_get_map_prompt summary_type) documents = .ok (summaries, events) →
      llm ((_get_reduce_prompt summary_type).format
        (String.intercalate "\n\n" summaries)) = .error m →
      _summarize_multiple_chunks llm documents summary_type = .error m) := by
  refine ⟨?_, ?_, ?_, ?_⟩
  · intro llm store task_id text summary_type e h
    unfold summarize_transcript_task _run_summarization
    rw [h]
  · intro llm doc summary_type m h
    unfold _summarize_single_chunk
    simp only []
    rw [h]
    rfl
  · intro llm documents summary_type hex
    obtain ⟨e, he⟩ := mapBatches_error llm (_get_map_prompt summary_type)
      documents.length documents (le_refl _) hex
    refine ⟨e, ?_⟩
    unfold _summarize_multiple_chunks
    simp only []
    rw [he]
    rfl
  · intro llm documents summary_type summaries events m hmb hred
    unfold _summarize_multiple_chunks
    simp only []
    rw [hmb, except_bind_ok]
    dsimp only
    rw [hred]
    rfl

/-- C4 witness: a failing LLM on a concrete input leaves the job FAILED with
the underlying error message, and a map-phase failure aborts a concrete
map-reduce run. -/
theorem claim_c4_llm_failure_aborts_job_witness :
    summarize_transcript_task (fun _ => .error "LLM Error") (fun _ _ _ => .ok "doc_123")
      "task-1" "hello world" "comprehensive" = JobState.failed "LLM Error" :=
  claim_c4_llm_failure_aborts_job.1 (fun _ => .error "LLM Error")
    (fun _ _ _ => .ok "doc_123") "task-1" "hello world" "comprehensive" "LLM Error" rfl

/-- C6: evaluation of the engine at empty-after-trimming inputs.  With a
successful stub LLM the engine RETURNS A RESULT instead of failing: for the
empty text it runs the map-reduce path over zero chunks (one reduce call on an
empty joined text, `chunk_count = 0`), and for whitespace-only text it runs the
single-chunk path.  No validation error exists in `summarize_transcript`. -/
theorem claim_c6_engine_accepts_empty_eval :
    (∃ r p,
      summarize_transcript (pureLLM fun _ => "stub summary") "" "comprehensive"
        = .ok (r, p)
      ∧ r.chunk_count = 0 ∧ p = SummaryPath.mapReduce)
    ∧ (∃ r p,
      summarize_transcript (pureLLM fun _ => "ok") "   \n  \t  " "comprehensive"
        = .ok (r, p)) := by
  constructor
  · exact ⟨{ summary := "stub summary", original_length := 0, summary_length := 12,
             compression_ratio := (0 : ℚ) / (12 : ℚ), chunk_count := 0,
             summary_type := "comprehensive" },
      SummaryPath.mapReduce, rfl, rfl, rfl⟩
  · exact ⟨{ summary := "ok", original_length := 9, summary_length := 2,
             compression_ratio := (9 : ℚ) / (2 : ℚ), chunk_count := 1,
             summary_type := "comprehensive" },
      SummaryPath.single, rfl⟩

/-- C7: evaluation of the status/result endpoints.  For an unknown job id (no
backend record; Celery reports such ids as PENDING) `get_task_status` returns a
200 PENDING response — it has no NotFound outcome — and `get_summary` answers
202 NotReady, not 404.  The NotReady and Failed mappings of the claim do hold:
PROCESSING yields 202 and FAILURE yields 400 carrying the stored message. -/
theorem claim_c7_status_result_eval :
    get_task_status (fun _ => none) "unknown-job"
      = .ok { task_id := "unknown-job", status := TaskStatus.pending,
              progress := none, result := none, error_message := none }
    ∧ get_summary (fun _ => none) (fun _ => none) "unknown-job"
      = .error (202, "Task is still processing. Check status endpoint for progress.")
    ∧ (∀ (task_id info : String),
        get_summary (fun _ => some (CeleryState.FAILURE info)) (fun _ => none) task_id
          = .error (400, "Task failed: " ++ info))
    ∧ (∀ (task_id : String) (progress : Nat),
        get_summary (fun _ => some (CeleryState.PROCESSING progress)) (fun _ => none)
          task_id
          = .error (202, "Task is still processing. Check status endpoint for progress.")) :=
  ⟨rfl, rfl, fun _ _ => rfl, fun _ _ => rfl⟩

/-- C10: the request model rejects text shorter than 10 characters with a
validation error before any task submission is built, and the text of a
successful submission is the submitted text stripped of surrounding
whitespace. -/
theorem claim_c10_request_validation (text summary_type : String) :
    (text.length < 10 →
      summarize_endpoint text summary_type
        = .error (422, "ensure this value has at least 10 characters"))
    ∧ (∀ t, summarize_endpoint text summary_type = .ok t →
        t.text = pyStrip text ∧ t.summary_type = summary_type) := by
  constructor
  · intro hlt
    unfold summarize_endpoint summarizationRequest_text
    rw [if_pos hlt]
  · intro t ht
    unfold summarize_endpoint summarizationRequest_text validate_text at ht
    by_cases h1 : text.length < 10
    · rw [if_pos h1] at ht
      cases ht
    · rw [if_neg h1] at ht
      by_cases h2 : 1000000 < text.length
      · rw [if_pos h2] at ht
        cases ht
      · rw [if_neg h2] at ht
        by_cases h3 : pyStrip text = ""
        · rw [if_pos h3] at ht
          cases ht
        · rw [if_neg h3] at ht
          dsimp only at ht
          by_cases h4 : max_text_length < (pyStrip text).length
          · rw [if_pos h4] at ht
            cases ht
          · rw [if_neg h4] at ht
            cases ht
            exact ⟨rfl, rfl⟩

/-- C10 witness: a 5-character submission is rejected with the min-length
validation error, and a padded valid submission reaches the task stripped. -/
theorem claim_c10_request_validation_witness :
    summarize_endpoint "short" "brief"
      = .error (422, "ensure this value has at least 10 characters")
    ∧ (SubmittedTask.mk "hello worlds" "brief").text = pyStrip "  hello worlds  " :=
  ⟨(claim_c10_request_validation "short" "brief").1 (by decide),
   ((claim_c10_request_validation "  hello worlds  " "brief").2
     (SubmittedTask.mk "hello worlds" "brief") rfl).1⟩

end TranscriptSummarizer

namespace TranscriptSummarizer

theorem invokeAll_pure (call : String → String) :
    ∀ ps : List String, invokeAll (pureLLM call) ps = .ok (ps.map call) := by
  intro ps
  induction ps with
  | nil => rfl
  | cons p rest ih =>
    rw [invokeAll, show pureLLM call p = Except.ok (call p) from rfl,
      except_bind_ok, ih, except_bind_ok]
    rfl

theorem mapBatches_pure (call : String → String) (mp : PromptTemplate) :
    ∀ (n : Nat) (docs : List String), docs.length ≤ n →
    mapBatches (pureLLM call) mp docs
      = .ok (docs.map (fun d => pyStrip (call (mp.format d))),
             ((chunkBatches docs).map
               (fun b => [MapEvent.batch b, MapEvent.sleep (1/2)])).flatten) := by
  intro n
  induction n with
  | zero =>
    intro docs hlen
    have : docs = [] := List.eq_nil_of_length_eq_zero (Nat.le_zero.mp hlen)
    subst this
    rfl
  | succ n ih =>
    intro docs hlen
    match docs with
    | [] => rfl
    | [a] =>
      rw [mapBatches, invokeAll_pure, except_bind_ok]
      rfl
    | [a, b] =>
      rw [mapBatches, invokeAll_pure, except_bind_ok]
      rfl
    | a :: b :: c :: rest =>
      have hlen' : rest.length ≤ n := by
        simp only [List.length_cons] at hlen
        omega
      rw [mapBatches]
      simp only []
      rw [invokeAll_pure, except_bind_ok, ih rest hlen', except_bind_ok]
      rfl

theorem chunkBatches_flatten :
    ∀ (n : Nat) (docs : List String), docs.length ≤ n →
    (chunkBatches docs).flatten = docs := by
  intro n
  induction n with
  | zero =>
    intro docs hlen
    have : docs = [] := List.eq_nil_of_length_eq_zero (Nat.le_zero.mp hlen)
    subst this
    rfl
  | succ n ih =>
    intro docs hlen
    match docs with
    | [] => rfl
    | [a] => rfl
    | [a, b] => rfl
    | a :: b :: c :: rest =>
      have hlen' : rest.length ≤ n := by
        simp only [List.length_cons] at hlen
        omega
      rw [chunkBatches, List.flatten_cons, ih rest hlen']
      rfl

theorem chunkBatches_sizes :
    ∀ (n : Nat) (docs : List String), docs.length ≤ n →
    ∀ b ∈ chunkBatches docs, 0 < b.length ∧ b.length ≤ batch_size := by
  intro n
  induction n with
  | zero =>
    intro docs hlen b hb
    have : docs = [] := List.eq_nil_of_length_eq_zero (Nat.le_zero.mp hlen)
    subst this
    cases hb
  | succ n ih =>
    intro docs hlen b hb
    match docs with
    | [] => cases hb
    | [a] =>
      have : b = [a] := by simpa [chunkBatches] using hb
      subst this
      exact ⟨by simp, by simp [batch_size]⟩
    | [a, c] =>
      have : b = [a, c] := by simpa [chunkBatches] using hb
      subst this
      exact ⟨by simp, by simp [batch_size]⟩
    | a :: c :: d :: rest =>
      have hlen' : rest.length ≤ n := by
        simp only [List.length_cons] at hlen
        omega
      rw [chunkBatches] at hb
      rcases List.mem_cons.mp hb with rfl | hmem
      · exact ⟨by simp, by simp [batch_size]⟩
      · exact ih rest hlen' b hmem

theorem range_map_getD {α : Type} (f : String → α) :
    ∀ batch : List String,
    (List.range batch.length).map (fun i => f (batch.getD i ""))
      = batch.map f := by
  intro batch
  induction batch with
  | nil => rfl
  | cons x xs ih =>
    rw [List.length_cons, List.range_succ_eq_map]
    simp only [List.map_cons, List.getD_cons_zero, List.map_map]
    have hcomp : ((fun i => f ((x :: xs).getD i "")) ∘ Nat.succ)
        = fun i => f (xs.getD i "") := by
      funext i
      simp
    rw [hcomp, ih]

end TranscriptSummarizer

namespace TranscriptSummarizer

theorem find?_indexed (call : String → String) (batch : List String) (i : Nat) :
    ∀ order : List Nat, i ∈ order →
    ((order.map fun j => (j, call (batch.getD j ""))).find? fun p => p.1 == i)
      = some (i, call (batch.getD i "")) := by
  intro order
  induction order with
  | nil => intro h; cases h
  | cons j js ihj =>
    intro hmem
    simp only [List.map_cons]
    by_cases hji : j = i
    · subst hji
      rw [List.find?_cons_of_pos]
      simp
    · rw [List.find?_cons_of_neg]
      · exact ihj (by
          rcases List.mem_cons.mp hmem with rfl | hm
          · exact absurd rfl hji
          · exact hm)
      · simpa using hji

theorem gather_perm (call : String → String) (batch : List String)
    (order : List Nat) (hperm : order.Perm (List.range batch.length)) :
    gatherResults batch.length (runByCompletion call batch order)
      = batch.map call := by
  unfold gatherResults runByCompletion
  have hsub : ∀ l : List Nat, (∀ i ∈ l, i ∈ order) →
      (l.filterMap fun i =>
        ((order.map fun j => (j, call (batch.getD j ""))).find? fun p => p.1 == i).map
          Prod.snd)
      = l.map fun i => call (batch.getD i "") := by
    intro l hl
    induction l with
    | nil => rfl
    | cons x xs ihx =>
      rw [List.filterMap_cons, find?_indexed call batch x order (hl x (by simp))]
      simp only [Option.map_some']
      rw [ihx fun i hi => hl i (by simp [hi])]
      rfl
  rw [hsub (List.range batch.length)
    (fun i hi => hperm.mem_iff.mpr hi)]
  exact range_map_getD call batch

/-- C1: in the map phase of a multi-chunk run, chunks are processed in
fixed-size batches of `batch_size = 3` (the last batch possibly shorter),
batches execute sequentially with the fixed half-second pause after each
batch, the per-chunk summaries come back in original chunk order — also
regardless of the completion order of the concurrent calls inside a batch —
and the reduce call receives them joined with a blank line. -/
theorem claim_c1_map_phase_batching (call : String → String)
    (documents : List String) (summary_type : String)
    (_h : 1 < documents.length) :
    ((chunkBatches documents).flatten = documents)
    ∧ (∀ b ∈ chunkBatches documents, 0 < b.length ∧ b.length ≤ batch_size)
    ∧ (mapBatches (pureLLM call) (_get_map_prompt summary_type) documents
        = .ok (documents.map
                 (fun d => pyStrip (call ((_get_map_prompt summary_type).format d))),
               ((chunkBatches documents).map
                 (fun b => [MapEvent.batch b, MapEvent.sleep (1/2)])).flatten))
    ∧ (_summarize_multiple_chunks (pureLLM call) documents summary_type
        = .ok (pyStrip (call ((_get_reduce_prompt summary_type).format
            (String.intercalate "\n\n" (documents.map
              (fun d => pyStrip (call ((_get_map_prompt summary_type).format d)))))))))
    ∧ (∀ b ∈ chunkBatches documents, ∀ order : List Nat,
        order.Perm (List.range b.length) →
        gatherResults b.length
          (runByCompletion
            (fun d => call ((_get_map_prompt summary_type).format d)) b order)
        = b.map fun d => call ((_get_map_prompt summary_type).format d)) := by
  refine ⟨chunkBatches_flatten documents.length documents (le_refl _),
    chunkBatches_sizes documents.length documents (le_refl _),
    mapBatches_pure call (_get_map_prompt summary_type) documents.length documents
      (le_refl _),
    ?_,
    fun b _ order hperm =>
      gather_perm (fun d => call ((_get_map_prompt summary_type).format d)) b order
        hperm⟩
  unfold _summarize_multiple_chunks
  simp only []
  rw [mapBatches_pure call (_get_map_prompt summary_type) documents.length documents
    (le_refl _), except_bind_ok]
  rfl

/-- C1 witness: the concrete four-chunk run is batched as [abc][d], whose
concatenation restores the original chunk order. -/
theorem claim_c1_map_phase_batching_witness :
    (chunkBatches ["a", "b", "c", "d"]).flatten = ["a", "b", "c", "d"] :=
  (claim_c1_map_phase_batching id ["a", "b", "c", "d"] "comprehensive" (by decide)).1

end TranscriptSummarizer

namespace TranscriptSummarizer

/-- C9 (chunker modelled from the spec, section 4.1): for every valid
configuration (`overlap < targetSize`) and non-empty input, concatenating the
chunk texts while skipping each later chunk's `overlap`-character overlapping
prefix reconstructs the input exactly — no gaps; in particular this holds for
the chunk sequence `_create_documents` hands to the engine. -/
theorem claim_c9_chunk_coverage :
    (∀ (targetSize overlap : Nat) (cs : List Char),
      overlap < targetSize → cs ≠ [] →
      Chunker.reconstruct overlap (Chunker.split targetSize overlap cs) = cs)
    ∧ (∀ text : String, text ≠ "" →
      Chunker.reconstruct chunk_overlap ((_create_documents text).map String.data)
        = text.data) := by
  constructor
  · exact fun ts ov cs hov hne => Chunker.split_cover ts ov cs hov hne
  · intro text hne
    have hdata : text.data ≠ [] := by
      intro hc
      apply hne
      cases text with
      | mk l =>
        simp only [String.data] at hc
        subst hc
        rfl
    have hmap : (_create_documents text).map String.data
        = Chunker.split chunk_size chunk_overlap text.data := by
      unfold _create_documents
      rw [List.map_map]
      have hid : String.data ∘ List.asString = id := by
        funext l
        rfl
      rw [hid, List.map_id]
    rw [hmap]
    exact Chunker.split_cover chunk_size chunk_overlap text.data (by decide) hdata

/-- C9 witness: coverage evaluated on a concrete text with target size 5 and
overlap 2. -/
theorem claim_c9_chunk_coverage_witness :
    Chunker.reconstruct 2 (Chunker.split 5 2 "hello world, this. is a test".data)
      = "hello world, this. is a test".data :=
  claim_c9_chunk_coverage.1 5 2 "hello world, this. is a test".data
    (by decide) (by decide)

end TranscriptSummarizer
